import Mathlib

/-!
# Verification of the GoodreadsScraper orchestration / checkpoint / merge layer

Shallow embedding of the core of `search_crawl.py` and
`GoodreadsScraper/pipelines.py`: the round-robin partitioner, the resume
filter, the checkpoint store (scan and count), the per-worker CSV pipeline
with batched checkpointing, the CSV merger, the snapshot-threshold monitor
loop, and the startup directory cleaning.  Definitions are translated
directly from the Python source; theorems settle the specified properties.
-/

namespace SearchCrawl

/-- One slot update of the round-robin loop in `main`
(`partitions[i % num_workers].append(book)`): append `x` at the end of the
`j`-th sublist, leaving all other sublists unchanged.  (For `j` out of
range the Python code cannot reach this case: `i % num_workers` is always
a valid slot when `num_workers ≥ 1`.) -/
def appendAt {α : Type} (parts : List (List α)) (j : Nat) (x : α) : List (List α) :=
  match parts, j with
  | [], _ => []
  | p :: ps, 0 => (p ++ [x]) :: ps
  | p :: ps, Nat.succ j => p :: appendAt ps j x

/-- `num_workers = min(args.workers, len(books))` in `main`. -/
def num_workers (requested L : Nat) : Nat := min requested L

/-- The partitioning loop of `main`:
`partitions = [[] for _ in range(num_workers)]` followed by
`for i, book in enumerate(books): partitions[i % num_workers].append(book)`. -/
def makePartitions {α : Type} (books : List α) (W : Nat) : List (List α) :=
  books.enum.foldl (fun parts p => appendAt parts (p.1 % W) p.2)
    (List.replicate W [])

/-- The resume filter of `main`:
`books = [(idx, t, a) for idx, t, a in books if idx not in completed]`.
A book is an `(index, payload)` pair and `completed` is the set loaded
from the checkpoint directory. -/
def excluding {α : Type} (books : List (Nat × α)) (completed : Finset Nat) :
    List (Nat × α) :=
  books.filter (fun b => decide (b.1 ∉ completed))

/-- One raw line of a checkpoint file, classified by exactly the two
attributes the Python code observes: whether `line.strip()` is empty, and
what `int(line)` yields.  `blank` is a line that strips to empty, `num n`
a line whose stripped text is the numeral for `n`, `garbage` a non-blank
line on which `int` raises. -/
inductive Line where
  | blank
  | num (n : Nat)
  | garbage
deriving DecidableEq, Repr

/-- Errors the checkpoint scan can raise: `open(path)` raising on an
unreadable file, or `int(line)` raising on a non-numeric line. -/
inductive ScanError where
  | permissionError
  | valueError
deriving DecidableEq, Repr

/-- Inner loop of `load_checkpoint` over one checkpoint file:
`line = line.strip(); if line: completed.add(int(line))` for every line,
raising `ValueError` when a non-blank line is not a numeral. -/
def scanFile (completed : Finset Nat) : List Line → Except ScanError (Finset Nat)
  | [] => .ok completed
  | .blank :: rest => scanFile completed rest
  | .num n :: rest => scanFile (insert n completed) rest
  | .garbage :: _ => .error .valueError

/-- Outer loop of `load_checkpoint` over the `checkpoint_*.txt` files of
the directory listing.  An entry `none` is a file present in the listing
whose `open` raises (unreadable); `some lines` is a readable file. -/
def scanFiles (completed : Finset Nat) :
    List (Option (List Line)) → Except ScanError (Finset Nat)
  | [] => .ok completed
  | none :: _ => .error .permissionError
  | some lines :: rest =>
    match scanFile completed lines with
    | .ok c => scanFiles c rest
    | .error e => .error e

/-- `load_checkpoint(checkpoint_dir)` of `search_crawl.py`: the empty set
when the directory is missing (`os.path.isdir` false), otherwise the fold
of every `checkpoint_*.txt` file of the listing into a set of completed
indices. -/
def load_checkpoint :
    Option (List (Option (List Line))) → Except ScanError (Finset Nat)
  | none => .ok ∅
  | some files => scanFiles ∅ files

/-- The per-line view of `load_checkpoint` used to state its
characterisation: a blank line contributes nothing, a numeral line
contributes its integer value. -/
def parseLine : Line → Option Nat
  | .num n => some n
  | _ => none

/-- State of `checkpoint_{worker_id}.txt` as probed by the monitor loop of
`main`: missing (`os.path.exists` false), existing but unreadable (`open`
raises), or readable with the given lines. -/
inductive FileState where
  | missing
  | unreadable
  | readable (lines : List Line)
deriving DecidableEq, Repr

/-- `sum(1 for line in f if line.strip())` for one open checkpoint file:
the number of lines that do not strip to empty (numeral or garbage alike —
this count never parses). -/
def countFileLines (lines : List Line) : Nat :=
  (lines.filter (fun l => decide (l ≠ Line.blank))).length

/-- Propositional equality of `Except` results is decidable when both
component types are. -/
instance {ε α : Type} [DecidableEq ε] [DecidableEq α] : DecidableEq (Except ε α)
  | .ok a, .ok b =>
    if h : a = b then .isTrue (by rw [h])
    else .isFalse (fun hc => h (by injection hc))
  | .error a, .error b =>
    if h : a = b then .isTrue (by rw [h])
    else .isFalse (fun hc => h (by injection hc))
  | .ok _, .error _ => .isFalse (by intro h; injection h)
  | .error _, .ok _ => .isFalse (by intro h; injection h)

/-- The completed-count poll of the monitor loop in `main`: for each worker
id in order, a missing `checkpoint_{worker_id}.txt` is skipped and an
existing one is opened and its non-blank lines are counted. -/
def countAll : List FileState → Except ScanError Nat
  | [] => .ok 0
  | .missing :: rest => countAll rest
  | .unreadable :: _ => .error .permissionError
  | .readable lines :: rest =>
    match countAll rest with
    | .ok n => .ok (countFileLines lines + n)
    | .error e => .error e

/-- One iteration of the snapshot policy of the monitor loop in `main`:
when `total_books > 0` and `pct_done = completed / total * 100` reaches
`next_snapshot_pct`, a snapshot labelled with the current threshold is
merged and the threshold advances by 10.  The state is
`(next_snapshot_pct, labels of snapshots fired so far)`; the float
percentage test is modelled as the exact comparison
`next_snapshot_pct * total ≤ completed * 100`. -/
def monitorStep (total : Nat) (s : Nat × List Nat) (completed : Nat) :
    Nat × List Nat :=
  if 0 < total ∧ s.1 * total ≤ completed * 100 then (s.1 + 10, s.2 ++ [s.1])
  else s

/-- The snapshot state across a run of the monitor loop in `main`:
`next_snapshot_pct` starts at 10 and each iteration processes one polled
completed count. -/
def monitorRun (total : Nat) (polls : List Nat) : Nat × List Nat :=
  polls.foldl (monitorStep total) (10, [])

/-- `CSV_COLUMNS` of `search_crawl.py`: the fixed schema of the merged
output. -/
def CSV_COLUMNS : List String :=
  ["title", "author", "genres", "description", "publishedYear",
   "goodreads_url", "status"]

/-- `row.get(col, "")` on a `csv.DictReader` row, modelled as an
association list from the sink's own header to the row's values. -/
def rowGet (row : List (String × String)) (col : String) : String :=
  ((row.find? (fun p => p.1 == col)).map Prod.snd).getD ""

/-- The line written by
`writer.writerow({col: row.get(col, "") for col in CSV_COLUMNS})` in
`merge_csv_files`: the row's values under the fixed merge schema, in
schema order, absent fields as `""`. -/
def renderRow (row : List (String × String)) : List String :=
  CSV_COLUMNS.map (fun col => rowGet row col)

/-- `merge_csv_files(worker_files, final_output)` of `search_crawl.py`.
A worker file is `none` when missing (`os.path.exists` false — skipped) and
otherwise the list of its data rows as read by `csv.DictReader`.  The
header is written first, then every row of every existing sink in
worker-id order, preserving each sink's row order;
`open(final_output, "w")` truncates, so the previous destination content
`_prevDest` is discarded. -/
def merge_csv_files (worker_files : List (Option (List (List (String × String)))))
    (_prevDest : List (List String)) : List (List String) :=
  worker_files.foldl
    (fun out wf =>
      match wf with
      | none => out
      | some rows => out ++ rows.map renderRow)
    [CSV_COLUMNS]

/-- The filesystem state touched by startup: the checkpoint directory
(holding the checkpoint logs and the worker output sinks), the log
directory, and the final output file; `none` means absent.  Directories
are named files with their lines. -/
structure FsState where
  checkpoint_dir : Option (List (String × List String))
  log_dir : Option (List (String × List String))
  output_file : Option (List String)
deriving DecidableEq, Repr

/-- `clean_directories(checkpoint_dir, log_dir, output_file)` of
`search_crawl.py`: each directory is removed when present
(`shutil.rmtree`) and recreated empty (`os.makedirs`); the output file is
removed when present.  The resulting state is the same whatever existed
before. -/
def clean_directories (_fs : FsState) : FsState :=
  { checkpoint_dir := some [], log_dir := some [], output_file := none }

/-- `os.makedirs(d, exist_ok=True)`: keeps an existing directory and its
contents, creates an empty one otherwise. -/
def makedirs_exist_ok (d : Option (List (String × List String))) :
    Option (List (String × List String)) :=
  some (d.getD [])

/-- The startup branch of `main` (lines 169–174, before any task is
loaded): with `--resume` both directories are merely ensured to exist and
nothing else is touched; without it `clean_directories` wipes checkpoints,
worker sinks, logs and the previous output file. -/
def startup (resume : Bool) (fs : FsState) : FsState :=
  if resume then
    { fs with checkpoint_dir := makedirs_exist_ok fs.checkpoint_dir,
              log_dir := makedirs_exist_ok fs.log_dir }
  else clean_directories fs

end SearchCrawl

namespace GoodreadsScraper

/-- A `SearchResultItem` as constructed by `SearchSpider`
(`spiders/search_spider.py`): the `row_idx` key plus the declared string
fields.  `none` models a field the spider left unset (the not-found branch
sets no `publishedYear`); `Item.get(col, "")` yields `""` for unset
fields. -/
structure SearchResultItem where
  row_idx : Nat
  title : Option String := none
  author : Option String := none
  genres : Option String := none
  description : Option String := none
  publishedYear : Option String := none
  goodreads_url : Option String := none
  status : Option String := none
deriving DecidableEq, Repr

/-- `CSV_COLUMNS` of `CsvSearchResultPipeline` (`pipelines.py`, line 19):
the per-worker output-sink schema.  Note: it has no `publishedYear`. -/
def CSV_COLUMNS : List String :=
  ["title", "author", "genres", "description", "goodreads_url", "status"]

/-- `item.get(col, "")` on a `SearchResultItem`. -/
def itemGet (item : SearchResultItem) (col : String) : String :=
  if col = "title" then item.title.getD ""
  else if col = "author" then item.author.getD ""
  else if col = "genres" then item.genres.getD ""
  else if col = "description" then item.description.getD ""
  else if col = "publishedYear" then item.publishedYear.getD ""
  else if col = "goodreads_url" then item.goodreads_url.getD ""
  else if col = "status" then item.status.getD ""
  else ""

/-- State of one worker's `CsvSearchResultPipeline`: the data rows written
(and flushed) to the output sink — each tagged with the `row_idx` of the
item that produced it, a specification-only tag since the CSV row itself
carries no index column —, the lines of the checkpoint file, the buffered
`completed_indices`, and `items_since_checkpoint`. -/
structure PipelineState where
  sinkRows : List (Nat × List (String × String))
  checkpointLines : List Nat
  completed_indices : List Nat
  items_since_checkpoint : Nat
deriving DecidableEq, Repr

/-- Fresh pipeline state after `open_spider` on a new run. -/
def initState : PipelineState :=
  { sinkRows := [], checkpointLines := [], completed_indices := [],
    items_since_checkpoint := 0 }

/-- `_save_checkpoint`: appends every buffered index to the checkpoint
file and clears the buffer; does nothing when the buffer is empty. -/
def save_checkpoint (s : PipelineState) : PipelineState :=
  if s.completed_indices = [] then s
  else { s with
    checkpointLines := s.checkpointLines ++ s.completed_indices,
    completed_indices := [] }

/-- `process_item` on a `SearchResultItem` (the `isinstance` guard holds
for every item this spider yields): write and flush the CSV row built from
the pipeline's `CSV_COLUMNS`, buffer the item's `row_idx`, and save a
checkpoint after every 1000 items. -/
def process_item (s : PipelineState) (item : SearchResultItem) : PipelineState :=
  let s1 := { s with
    sinkRows := s.sinkRows ++
      [(item.row_idx, CSV_COLUMNS.map (fun col => (col, itemGet item col)))],
    completed_indices := s.completed_indices ++ [item.row_idx],
    items_since_checkpoint := s.items_since_checkpoint + 1 }
  if s1.items_since_checkpoint ≥ 1000 then
    { save_checkpoint s1 with items_since_checkpoint := 0 }
  else s1

/-- `close_spider`: a final `_save_checkpoint` before closing the file. -/
def close_spider (s : PipelineState) : PipelineState := save_checkpoint s

/-- One observable transition of a worker's pipeline. -/
inductive Step : PipelineState → PipelineState → Prop where
  | item (s : PipelineState) (it : SearchResultItem) : Step s (process_item s it)
  | close (s : PipelineState) : Step s (close_spider s)

/-- Pipeline states reachable from a fresh pipeline. -/
def Reachable (s : PipelineState) : Prop :=
  Relation.ReflTransGen Step initState s

/-- One completed worker run: process every item, then `close_spider`. -/
def runWorker (items : List SearchResultItem) : PipelineState :=
  close_spider (items.foldl process_item initState)

/-- The spider's not-found outcome (`parse_search`): empty description,
genres and url, `status="not_found"`, and no `publishedYear`. -/
def notFoundItem (row_idx : Nat) (title author : String) : SearchResultItem :=
  { row_idx := row_idx, title := some title, author := some author,
    description := some "", genres := some "", goodreads_url := some "",
    status := some "not_found" }

/-- The spider's found outcome (`parse_book`): every field set, including
`publishedYear`, with `status="found"`. -/
def foundItem (row_idx : Nat)
    (title author description genres publishedYear goodreads_url : String) :
    SearchResultItem :=
  { row_idx := row_idx, title := some title, author := some author,
    description := some description, genres := some genres,
    publishedYear := some publishedYear, goodreads_url := some goodreads_url,
    status := some "found" }

end GoodreadsScraper

namespace SearchCrawl

theorem appendAt_length {α : Type} (parts : List (List α)) (j : Nat) (x : α) :
    (appendAt parts j x).length = parts.length := by
  induction parts generalizing j with
  | nil => rfl
  | cons p ps ih =>
    cases j with
    | zero => rfl
    | succ j => simp [appendAt, ih]

theorem foldl_appendAt_length {α : Type} (W : Nat) (l : List (Nat × α))
    (parts : List (List α)) :
    (l.foldl (fun parts p => appendAt parts (p.1 % W) p.2) parts).length =
      parts.length := by
  induction l generalizing parts with
  | nil => rfl
  | cons p l ih => simp [List.foldl_cons, ih, appendAt_length]

theorem makePartitions_length {α : Type} (books : List α) (W : Nat) :
    (makePartitions books W).length = W := by
  simp [makePartitions, foldl_appendAt_length]

theorem appendAt_getD {α : Type} (parts : List (List α)) (j k : Nat) (x : α)
    (hj : j < parts.length) :
    (appendAt parts j x).getD k [] =
      if k = j then parts.getD k [] ++ [x] else parts.getD k [] := by
  induction parts generalizing j k with
  | nil => simp at hj
  | cons p ps ih =>
    cases j with
    | zero =>
      cases k with
      | zero => simp [appendAt]
      | succ k => simp [appendAt]
    | succ j =>
      cases k with
      | zero => simp [appendAt]
      | succ k =>
        simp only [appendAt, List.getD_cons_succ]
        rw [ih j k (by simpa using hj)]
        simp [Nat.succ_inj]

/-- Pointwise characterisation of the round-robin fold: slot `k` of the
result is slot `k` of the initial slots followed by the second components of
the pending pairs whose first component falls in residue class `k` mod `W`. -/
theorem foldl_appendAt_getD {α : Type} (W : Nat) (hW : 1 ≤ W)
    (l : List (Nat × α)) (parts : List (List α)) (hparts : parts.length = W)
    (k : Nat) :
    (l.foldl (fun parts p => appendAt parts (p.1 % W) p.2) parts).getD k [] =
      parts.getD k [] ++ (l.filter (fun p => p.1 % W = k)).map Prod.snd := by
  induction l generalizing parts with
  | nil => simp
  | cons p l ih =>
    simp only [List.foldl_cons]
    rw [ih (appendAt parts (p.1 % W) p.2) (by rw [appendAt_length, hparts])]
    rw [appendAt_getD parts (p.1 % W) k p.2
      (by rw [hparts]; exact Nat.mod_lt _ (by omega))]
    by_cases hk : p.1 % W = k
    · simp [hk, List.filter_cons]
    · have hk' : ¬ k = p.1 % W := fun h => hk h.symm
      simp [hk, hk', List.filter_cons]

/-- Slot `k` of the partitioner output consists of exactly the books whose
position in the input list is congruent to `k` mod `W`, in input order. -/
theorem makePartitions_getD {α : Type} (books : List α) (W : Nat) (hW : 1 ≤ W)
    (k : Nat) (hk : k < W) :
    (makePartitions books W).getD k [] =
      (books.enum.filter (fun p => p.1 % W = k)).map Prod.snd := by
  rw [makePartitions, foldl_appendAt_getD W hW books.enum _ (by simp)]
  rw [List.getD_eq_getElem _ _ (by simpa using hk)]
  simp

theorem appendAt_flatten_perm {α : Type} (parts : List (List α)) (j : Nat) (x : α)
    (hj : j < parts.length) :
    (appendAt parts j x).flatten.Perm (parts.flatten ++ [x]) := by
  induction parts generalizing j with
  | nil => simp at hj
  | cons p ps ih =>
    cases j with
    | zero =>
      simp only [appendAt, List.flatten_cons]
      rw [List.append_assoc, List.append_assoc]
      exact List.Perm.append_left p List.perm_append_comm
    | succ j =>
      simp only [appendAt, List.flatten_cons]
      rw [List.append_assoc]
      exact (ih j (by simpa using hj)).append_left p

theorem foldl_appendAt_flatten_perm {α : Type} (W : Nat) (hW : 1 ≤ W)
    (l : List (Nat × α)) (parts : List (List α)) (hparts : parts.length = W) :
    (l.foldl (fun parts p => appendAt parts (p.1 % W) p.2) parts).flatten.Perm
      (parts.flatten ++ l.map Prod.snd) := by
  induction l generalizing parts with
  | nil => simp
  | cons p l ih =>
    simp only [List.foldl_cons, List.map_cons]
    refine (ih (appendAt parts (p.1 % W) p.2)
      (by rw [appendAt_length, hparts])).trans ?_
    refine ((appendAt_flatten_perm parts (p.1 % W) p.2
      (by rw [hparts]; exact Nat.mod_lt _ (by omega))).append_right _).trans ?_
    simp

/-- The partitions of the round-robin loop of `main` are, together, a
permutation of the input list: every book lands in exactly one partition,
exactly once. -/
theorem makePartitions_flatten_perm {α : Type} (books : List α) (W : Nat)
    (hW : 1 ≤ W) : (makePartitions books W).flatten.Perm books := by
  refine (foldl_appendAt_flatten_perm W hW books.enum _ (by simp)).trans ?_
  simp [List.enum_map_snd]

/-- Size of partition `k`: `⌊L / W⌋` plus one extra when `k < L % W`. -/
theorem makePartitions_size {α : Type} (books : List α) (W : Nat) (hW : 1 ≤ W)
    (k : Nat) (hk : k < W) :
    ((makePartitions books W).getD k []).length =
      books.length / W + if k < books.length % W then 1 else 0 := by
  rw [makePartitions_getD books W hW k hk, List.length_map,
    ← List.countP_eq_length_filter]
  have h1 : (books.enum.countP fun p => decide (p.1 % W = k)) =
      ((books.enum.map Prod.fst).countP fun i => decide (i % W = k)) := by
    rw [List.countP_map]; rfl
  rw [h1, List.enum_map_fst]
  have h2 : ((List.range books.length).countP fun i => decide (i % W = k)) =
      Nat.count (fun i => i ≡ k [MOD W]) books.length := by
    rw [Nat.count]
    refine List.countP_congr ?_
    intro i _
    simp only [decide_eq_true_eq, Nat.ModEq]
    rw [Nat.mod_eq_of_lt hk]
  rw [h2, Nat.count_modEq_card _ (show 0 < W by omega), Nat.mod_eq_of_lt hk]

/-- C1: for every task list of length `L ≥ 1` and requested worker count
`≥ 1`, the partitioner clamps the worker count to `W = min(requested, L)`,
produces `W` partitions, assigns the task at position `i` to worker
`i mod W` (partition `k` holds exactly the tasks at positions congruent to
`k`, in order), every input task lands in exactly one partition exactly once
(the partitions flatten to a permutation of the input), partition sizes
differ by at most 1, and 10 tasks with 3 workers give partitions
`[[0,3,6,9],[1,4,7],[2,5,8]]` of sizes `[4,3,3]`. -/
theorem C1_partition_round_robin {α : Type} (books : List α) (requested : Nat)
    (hreq : 1 ≤ requested) (hL : 1 ≤ books.length)
    (W : Nat) (hWdef : W = num_workers requested books.length) :
    W = min requested books.length ∧
    (makePartitions books W).length = W ∧
    (∀ k < W, (makePartitions books W).getD k [] =
      (books.enum.filter (fun p => p.1 % W = k)).map Prod.snd) ∧
    (makePartitions books W).flatten.Perm books ∧
    (∀ j < W, ∀ k < W,
      ((makePartitions books W).getD j []).length ≤
        ((makePartitions books W).getD k []).length + 1) ∧
    (makePartitions (List.range 10) 3).map List.length = [4, 3, 3] ∧
    makePartitions (List.range 10) 3 = [[0, 3, 6, 9], [1, 4, 7], [2, 5, 8]] := by
  have hW : 1 ≤ W := by
    rw [hWdef, num_workers]; omega
  refine ⟨hWdef, makePartitions_length books W, ?_, ?_, ?_, by decide, by decide⟩
  · intro k hk
    exact makePartitions_getD books W hW k hk
  · exact makePartitions_flatten_perm books W hW
  · intro j hj k hk
    rw [makePartitions_size books W hW j hj, makePartitions_size books W hW k hk]
    split <;> split <;> omega

/-- Witness for C1 at a concrete input: 10 tasks, 3 workers. -/
theorem C1_partition_round_robin_witness :
    makePartitions (List.range 10) 3 = [[0, 3, 6, 9], [1, 4, 7], [2, 5, 8]] :=
  (C1_partition_round_robin (List.range 10) 3 (by decide) (by decide) 3
    (by decide)).2.2.2.2.2.2

/-- C2: the resume filter returns exactly the tasks of `T` whose index is
not in the checkpoint set `C`, as a sublist of `T` (same relative order,
each remaining task unchanged, so each keeps its original index); with
`T = tasks 0..9` and `C = {0,3,6,9}` the remaining tasks are those with
indices `1,2,4,5,7,8`, in that order. -/
theorem C2_resume_filter {α : Type} :
    (∀ (books : List (Nat × α)) (completed : Finset Nat),
      (excluding books completed).Sublist books) ∧
    (∀ (books : List (Nat × α)) (completed : Finset Nat) (b : Nat × α),
      b ∈ excluding books completed ↔ b ∈ books ∧ b.1 ∉ completed) ∧
    excluding ((List.range 10).map (fun i => (i, i))) {0, 3, 6, 9} =
      [(1, 1), (2, 2), (4, 4), (5, 5), (7, 7), (8, 8)] := by
  refine ⟨fun books completed => List.filter_sublist books,
    fun books completed b => ?_, by decide⟩
  simp [excluding, List.mem_filter]

theorem scanFile_append_dup (n : Nat) (lines : List Line) :
    ∀ c, scanFile c (lines ++ [.num n, .num n]) = scanFile c (lines ++ [.num n]) := by
  induction lines with
  | nil =>
    intro c
    simp only [List.nil_append, scanFile, Finset.insert_idem]
  | cons l lines ih =>
    intro c
    cases l with
    | blank => exact ih c
    | num m => exact ih (insert m c)
    | garbage => rfl

theorem scanFiles_congr_last (lines lines' : List Line)
    (h : ∀ c, scanFile c lines = scanFile c lines')
    (files : List (Option (List Line))) :
    ∀ c, scanFiles c (files ++ [some lines]) = scanFiles c (files ++ [some lines']) := by
  induction files with
  | nil =>
    intro c
    simp only [List.nil_append, scanFiles]
    rw [h c]
  | cons f files ih =>
    intro c
    cases f with
    | none => rfl
    | some l =>
      simp only [List.cons_append, scanFiles]
      cases scanFile c l with
      | ok c' => exact ih c'
      | error e => rfl

theorem scanFile_ok (lines : List Line) (hwf : ∀ l ∈ lines, l ≠ Line.garbage) :
    ∀ c, scanFile c lines = .ok ((lines.filterMap parseLine).toFinset ∪ c) := by
  induction lines with
  | nil => intro c; simp [scanFile]
  | cons l lines ih =>
    intro c
    have hwf' : ∀ x ∈ lines, x ≠ Line.garbage :=
      fun x hx => hwf x (List.mem_cons_of_mem l hx)
    cases l with
    | blank =>
      simp only [scanFile, List.filterMap_cons, parseLine]
      exact ih hwf' c
    | num m =>
      simp only [scanFile, List.filterMap_cons, parseLine, List.toFinset_cons]
      rw [ih hwf' (insert m c)]
      simp [Finset.union_insert, Finset.insert_union]
    | garbage => exact absurd rfl (hwf Line.garbage (List.mem_cons_self _ _))

theorem scanFiles_ok (files : List (List Line))
    (hwf : ∀ lines ∈ files, ∀ l ∈ lines, l ≠ Line.garbage) :
    ∀ c, scanFiles c (files.map some) =
      .ok ((files.foldr
        (fun lines acc => (lines.filterMap parseLine).toFinset ∪ acc) ∅) ∪ c) := by
  induction files with
  | nil => intro c; simp [scanFiles]
  | cons lines files ih =>
    intro c
    have hwf' : ∀ ls ∈ files, ∀ l ∈ ls, l ≠ Line.garbage :=
      fun ls hls => hwf ls (List.mem_cons_of_mem lines hls)
    simp only [List.map_cons, scanFiles, List.foldr_cons]
    rw [scanFile_ok lines (hwf lines (List.mem_cons_self lines files)) c]
    show scanFiles _ (files.map some) = _
    rw [ih hwf' _]
    congr 1
    rw [Finset.union_left_comm, ← Finset.union_assoc]

theorem countAll_readable (files : List (List Line)) :
    countAll (files.map FileState.readable) = .ok ((files.map countFileLines).sum) := by
  induction files with
  | nil => rfl
  | cons lines files ih =>
    simp only [List.map_cons, countAll, List.sum_cons]
    rw [ih]

/-- C5: `scanAll` (`load_checkpoint`) returns the set-union of the integer
indices found in every checkpoint log of the directory, so appending the
same index twice yields a set containing it once, while `countAll` (the
monitor's poll) returns the raw number of non-blank lines across all logs
without deduplication; and the directory `checkpoint_0.txt = 0,3,0` /
`checkpoint_1.txt = 1` scans to `{0,1,3}` and counts to `4`. -/
theorem C5_scan_union_count_raw :
    (∀ (files : List (Option (List Line))) (lines : List Line) (n : Nat),
      load_checkpoint (some (files ++ [some (lines ++ [.num n, .num n])])) =
        load_checkpoint (some (files ++ [some (lines ++ [.num n])]))) ∧
    (∀ files : List (List Line),
      (∀ lines ∈ files, ∀ l ∈ lines, l ≠ Line.garbage) →
      load_checkpoint (some (files.map some)) =
        .ok (files.foldr
          (fun lines acc => (lines.filterMap parseLine).toFinset ∪ acc) ∅)) ∧
    (∀ files : List (List Line),
      countAll (files.map FileState.readable) = .ok ((files.map countFileLines).sum)) ∧
    load_checkpoint (some [some [.num 0, .num 3, .num 0], some [.num 1]]) =
      .ok {0, 1, 3} ∧
    countAll [.readable [.num 0, .num 3, .num 0], .readable [.num 1]] = .ok 4 := by
  refine ⟨?_, ?_, countAll_readable, by decide, by decide⟩
  · intro files lines n
    simp only [load_checkpoint]
    exact scanFiles_congr_last _ _ (scanFile_append_dup n lines) files ∅
  · intro files hwf
    simp only [load_checkpoint]
    rw [scanFiles_ok files hwf ∅, Finset.union_empty]

/-- Witness for C5: a fresh directory whose single log holds the marker `7`
scans to `{7}`. -/
theorem C5_scan_union_count_raw_witness :
    load_checkpoint (some ([[Line.num 7]].map some)) =
      .ok ([[Line.num 7]].foldr
        (fun lines acc => (lines.filterMap parseLine).toFinset ∪ acc) ∅) :=
  C5_scan_union_count_raw.2.1 [[Line.num 7]] (by decide)

/-- C9 counterexample: an existing-but-unreadable checkpoint log makes both
the resume scan (`load_checkpoint`, whose `open` raises) and the monitor's
count raise instead of contributing zero markers, refuting "unreadability
never causes scanAll or countAll to fail". -/
theorem C9_counterexample :
    (load_checkpoint (some [none])).isOk = false ∧
    (countAll [FileState.unreadable]).isOk = false := by decide

/-- C9 amended: a missing checkpoint directory scans to the empty set, and
a missing individual worker checkpoint log is skipped by the monitor's
count (contributing zero markers) and never causes it to fail; only an
existing-but-unreadable log raises. -/
theorem C9_missing_never_fatal :
    load_checkpoint none = .ok ∅ ∧
    (∀ pre post : List FileState,
      countAll (pre ++ FileState.missing :: post) = countAll (pre ++ post)) := by
  refine ⟨rfl, ?_⟩
  intro pre post
  induction pre with
  | nil => rfl
  | cons f pre ih =>
    cases f with
    | missing => simpa using ih
    | unreadable => rfl
    | readable lines =>
      simp only [List.cons_append, countAll, List.append_eq]
      rw [ih]

theorem monitorRun_closed_form (total : Nat) (polls : List Nat) :
    (monitorRun total polls).1 = 10 * (monitorRun total polls).2.length + 10 ∧
    (monitorRun total polls).2 =
      (List.range (monitorRun total polls).2.length).map (fun n => 10 * n + 10) := by
  suffices h : ∀ s : Nat × List Nat,
      s.1 = 10 * s.2.length + 10 →
      s.2 = (List.range s.2.length).map (fun n => 10 * n + 10) →
      (polls.foldl (monitorStep total) s).1 =
        10 * (polls.foldl (monitorStep total) s).2.length + 10 ∧
      (polls.foldl (monitorStep total) s).2 =
        (List.range (polls.foldl (monitorStep total) s).2.length).map
          (fun n => 10 * n + 10) by
    exact h (10, []) (by simp) (by simp)
  induction polls with
  | nil => exact fun s h1 h2 => ⟨h1, h2⟩
  | cons c polls ih =>
    intro s h1 h2
    simp only [List.foldl_cons]
    by_cases hfire : 0 < total ∧ s.1 * total ≤ c * 100
    · rw [show monitorStep total s c = (s.1 + 10, s.2 ++ [s.1]) from by
        simp [monitorStep, if_pos hfire]]
      refine ih (s.1 + 10, s.2 ++ [s.1]) ?_ ?_
      · simp only [List.length_append, List.length_cons, List.length_nil]
        omega
      · simp only [List.length_append, List.length_cons, List.length_nil,
          Nat.add_zero]
        rw [List.range_succ, List.map_append, ← h2, h1]
        simp
    · rw [show monitorStep total s c = s from by simp [monitorStep, if_neg hfire]]
      exact ih s h1 h2

/-- C8: the snapshot threshold starts at 10; a snapshot fires whenever the
polled completed count reaches the threshold percentage, after which the
threshold advances by exactly 10; consequently the fired thresholds are
exactly `10, 20, …, 10·k` in strictly increasing order, each firing at most
once, regardless of the polled counts (which may be non-monotonic). -/
theorem C8_snapshot_thresholds (total : Nat) (polls : List Nat) :
    monitorRun total [] = (10, []) ∧
    (∀ (th : Nat) (fired : List Nat) (c : Nat), 0 < total → th * total ≤ c * 100 →
      monitorStep total (th, fired) c = (th + 10, fired ++ [th])) ∧
    (∀ (th : Nat) (fired : List Nat) (c : Nat), ¬ (0 < total ∧ th * total ≤ c * 100) →
      monitorStep total (th, fired) c = (th, fired)) ∧
    (monitorRun total polls).1 = 10 * (monitorRun total polls).2.length + 10 ∧
    (monitorRun total polls).2 =
      (List.range (monitorRun total polls).2.length).map (fun n => 10 * n + 10) ∧
    (monitorRun total polls).2.Pairwise (· < ·) ∧
    (monitorRun total polls).2.Nodup := by
  obtain ⟨h1, h2⟩ := monitorRun_closed_form total polls
  have hpw : (monitorRun total polls).2.Pairwise (· < ·) := by
    rw [h2]
    refine List.Pairwise.map _ ?_ (List.pairwise_lt_range _)
    intro a b hab
    omega
  refine ⟨rfl, ?_, ?_, h1, h2, hpw, hpw.imp fun hab => Nat.ne_of_lt hab⟩
  · intro th fired c htot hle
    simp [monitorStep, if_pos (And.intro htot hle)]
  · intro th fired c hne
    simp [monitorStep, if_neg hne]

/-- Witness for C8: with 10 tasks and the non-monotonic poll sequence
`1, 0, 5` (possible with duplicate markers) only thresholds 10 and 20 fire,
in order; the step at the first poll fires threshold 10 exactly. -/
theorem C8_snapshot_thresholds_witness :
    monitorStep 10 (10, []) 1 = (20, [] ++ [10]) :=
  (C8_snapshot_thresholds 10 [1, 0, 5]).2.1 10 [] 1 (by decide) (by decide)

theorem merge_foldl (worker_files : List (Option (List (List (String × String))))) :
    ∀ out, worker_files.foldl
        (fun out wf =>
          match wf with
          | none => out
          | some rows => out ++ rows.map renderRow) out =
      out ++ ((worker_files.filterMap id).map
        (fun rows => rows.map renderRow)).flatten := by
  induction worker_files with
  | nil => intro out; simp
  | cons wf wfs ih =>
    intro out
    cases wf with
    | none =>
      simp only [List.foldl_cons, List.filterMap_cons]
      exact ih out
    | some rows =>
      simp only [List.foldl_cons, List.filterMap_cons, id_eq, List.map_cons,
        List.flatten_cons]
      rw [ih (out ++ rows.map renderRow), List.append_assoc]

/-- C7: the merger writes exactly one header row followed by every data row
of every existing worker sink, in worker-id order and in each sink's
on-disk order; a missing sink is skipped; the result is independent of the
destination's previous content (so a repeated call overwrites it with the
same content); a field absent from a row serialises as `""`; and each
output line is the row's values under the fixed column set. -/
theorem C7_merge_schema (worker_files : List (Option (List (List (String × String)))))
    (d1 d2 : List (List String)) :
    merge_csv_files worker_files d1 =
      CSV_COLUMNS ::
        ((worker_files.filterMap id).map (fun rows => rows.map renderRow)).flatten ∧
    merge_csv_files worker_files d1 = merge_csv_files worker_files d2 ∧
    (∀ (row : List (String × String)) (col : String), col ∈ CSV_COLUMNS →
      (∀ p ∈ row, p.1 ≠ col) → rowGet row col = "") ∧
    (∀ row : List (String × String), renderRow row = CSV_COLUMNS.map (rowGet row)) := by
  refine ⟨?_, rfl, ?_, fun row => rfl⟩
  · unfold merge_csv_files
    rw [merge_foldl]
    rfl
  · intro row col _ hnone
    rw [rowGet, List.find?_eq_none.mpr ?_]
    · rfl
    · intro p hp
      simp only [beq_iff_eq]
      exact hnone p hp

/-- Witness for C7: a column bound nowhere in a row serialises as the empty
string. -/
theorem C7_merge_schema_witness : rowGet [("x", "1")] "title" = "" :=
  (C7_merge_schema [] [] []).2.2.1 [("x", "1")] "title" (by decide) (by decide)

/-- C10: without `--resume`, startup (which runs before any task is
loaded) resets the checkpoint directory (checkpoint logs and worker output
sinks) and the log directory to empty and removes the final output file,
whatever existed before — destroying all prior progress; with `--resume`,
startup leaves every existing checkpoint-directory file, worker sink, log
and the output file unchanged, merely creating the directories when
absent. -/
theorem C10_startup_frame (fs : FsState) :
    startup false fs =
      { checkpoint_dir := some [], log_dir := some [], output_file := none } ∧
    (∀ files, fs.checkpoint_dir = some files →
      (startup true fs).checkpoint_dir = some files) ∧
    (∀ files, fs.log_dir = some files → (startup true fs).log_dir = some files) ∧
    (startup true fs).output_file = fs.output_file ∧
    (startup true fs).checkpoint_dir = some (fs.checkpoint_dir.getD []) ∧
    (startup true fs).log_dir = some (fs.log_dir.getD []) := by
  refine ⟨rfl, ?_, ?_, rfl, rfl, rfl⟩
  · intro files h
    simp [startup, makedirs_exist_ok, h]
  · intro files h
    simp [startup, makedirs_exist_ok, h]

/-- Witness for C10: a populated checkpoint directory survives a resume
startup unchanged. -/
theorem C10_startup_frame_witness :
    (startup true
      { checkpoint_dir := some [("checkpoint_0.txt", ["0"])],
        log_dir := some [], output_file := some ["x"] }).checkpoint_dir =
      some [("checkpoint_0.txt", ["0"])] :=
  (C10_startup_frame _).2.1 [("checkpoint_0.txt", ["0"])] rfl

end SearchCrawl

namespace GoodreadsScraper

theorem save_checkpoint_spec (t : PipelineState) :
    (save_checkpoint t).checkpointLines =
      t.checkpointLines ++ t.completed_indices ∧
    (save_checkpoint t).completed_indices = [] ∧
    (save_checkpoint t).sinkRows = t.sinkRows := by
  unfold save_checkpoint
  split
  next h => exact ⟨by rw [h, List.append_nil], h, rfl⟩
  next h => exact ⟨rfl, rfl, rfl⟩

theorem process_item_spec (s : PipelineState) (it : SearchResultItem) :
    (process_item s it).sinkRows =
      s.sinkRows ++
        [(it.row_idx, CSV_COLUMNS.map (fun col => (col, itemGet it col)))] ∧
    (process_item s it).checkpointLines ++ (process_item s it).completed_indices =
      (s.checkpointLines ++ s.completed_indices) ++ [it.row_idx] := by
  constructor
  · simp only [process_item]
    split
    · simp [save_checkpoint, List.append_eq_nil]
    · rfl
  · simp only [process_item]
    split
    · simp [save_checkpoint, List.append_eq_nil, List.append_assoc]
    · simp [List.append_assoc]

theorem foldl_process_item_spec (items : List SearchResultItem) :
    ∀ s : PipelineState,
      (items.foldl process_item s).sinkRows.map Prod.fst =
        s.sinkRows.map Prod.fst ++ items.map SearchResultItem.row_idx ∧
      (items.foldl process_item s).checkpointLines ++
          (items.foldl process_item s).completed_indices =
        (s.checkpointLines ++ s.completed_indices) ++
          items.map SearchResultItem.row_idx ∧
      (items.foldl process_item s).sinkRows.length =
        s.sinkRows.length + items.length := by
  induction items with
  | nil => intro s; simp
  | cons it items ih =>
    intro s
    simp only [List.foldl_cons, List.map_cons, List.length_cons]
    obtain ⟨h1, h2⟩ := process_item_spec s it
    obtain ⟨ih1, ih2, ih3⟩ := ih (process_item s it)
    refine ⟨?_, ?_, ?_⟩
    · rw [ih1, h1]
      simp
    · rw [ih2, h2]
      simp
    · rw [ih3, h1]
      simp only [List.length_append, List.length_cons, List.length_nil]
      omega

theorem runWorker_spec (items : List SearchResultItem) :
    (runWorker items).checkpointLines = items.map SearchResultItem.row_idx ∧
    (runWorker items).sinkRows.map Prod.fst =
      items.map SearchResultItem.row_idx ∧
    (runWorker items).sinkRows.length = items.length ∧
    (runWorker items).completed_indices = [] := by
  obtain ⟨h1, h2, h3⟩ := foldl_process_item_spec items initState
  obtain ⟨hs1, hs2, hs3⟩ :=
    save_checkpoint_spec (items.foldl process_item initState)
  unfold runWorker close_spider
  refine ⟨?_, ?_, ?_, hs2⟩
  · rw [hs1, h2]
    simp [initState]
  · rw [hs3, h1]
    simp [initState]
  · rw [hs3]
    simpa [initState] using h3

/-- C3 counterexample: after a worker processes a single item (fewer than
1000 since the last checkpoint), the item's data row is already written
and flushed to the output sink while the checkpoint log is still empty —
the marker sits in the in-memory `completed_indices` buffer — so the sink
holds a row whose index is not in the checkpoint log, refuting "every data
row present in the output sink has its index already present in the
checkpoint log". -/
theorem C3_counterexample :
    ¬ (∀ r ∈ (process_item initState (notFoundItem 0 "t" "a")).sinkRows,
        r.1 ∈ (process_item initState (notFoundItem 0 "t" "a")).checkpointLines) := by
  decide

/-- C3 amended: the worker's write order is row-first (written and flushed
in `process_item`) and marker-later (buffered, appended on the 1000-item
batch or at `close_spider`); hence at every reachable point of a worker's
execution, every index present in its checkpoint log — and even every
buffered index — already has its data row in the output sink. -/
theorem C3_row_written_before_marker (s : PipelineState) (h : Reachable s) :
    ∀ i ∈ s.checkpointLines, i ∈ s.sinkRows.map Prod.fst := by
  suffices hinv : ∀ t : PipelineState, Reachable t →
      ∀ i ∈ t.checkpointLines ++ t.completed_indices,
        i ∈ t.sinkRows.map Prod.fst by
    intro i hi
    exact hinv s h i (List.mem_append_left _ hi)
  intro t ht
  unfold Reachable at ht
  induction ht with
  | refl => intro i hi; simp [initState] at hi
  | tail hr step ih =>
    rename_i b c
    cases step with
    | item it =>
      intro i hi
      obtain ⟨h1, h2⟩ := process_item_spec b it
      rw [h2] at hi
      rw [h1, List.map_append, List.mem_append]
      rcases List.mem_append.mp hi with hold | hnew
      · exact Or.inl (ih i hold)
      · exact Or.inr (by simpa using hnew)
    | close =>
      intro i hi
      obtain ⟨hs1, hs2, hs3⟩ := save_checkpoint_spec b
      unfold close_spider at hi ⊢
      rw [hs1, hs2, List.append_nil] at hi
      rw [hs3]
      exact ih i hi

/-- Witness for C3's amended theorem: the two-step run
`process_item; close_spider` reaches a state whose checkpoint log holds
index 0, and indeed its row is in the sink. -/
theorem C3_row_written_before_marker_witness :
    (0 : Nat) ∈ (close_spider (process_item initState
      (notFoundItem 0 "t" "a"))).sinkRows.map Prod.fst :=
  C3_row_written_before_marker _
    (Relation.ReflTransGen.tail
      (Relation.ReflTransGen.single (Step.item initState (notFoundItem 0 "t" "a")))
      (Step.close _))
    0 (by decide)

/-- C6 (exhibit of the code bug): the spider extracts `publishedYear` and
the merge schema of `search_crawl.py` contains it, but the per-worker sink
schema `CsvSearchResultPipeline.CSV_COLUMNS` omits it, so for a found item
carrying `publishedYear="1999"` the written sink row has no
`publishedYear` column and the merged output serialises the year as `""`;
the remaining parts of the claim hold: the sink row follows the pipeline's
fixed 6-column schema, and a not-found item still writes exactly one row
(with `status="not_found"`) and still yields exactly one marker for its
index. -/
theorem C6_publishedYear_dropped :
    (foundItem 5 "T" "A" "D" "G" "1999" "u").publishedYear = some "1999" ∧
    "publishedYear" ∈ SearchCrawl.CSV_COLUMNS ∧
    "publishedYear" ∉ CSV_COLUMNS ∧
    ((process_item initState (foundItem 5 "T" "A" "D" "G" "1999" "u")).sinkRows.map
      (fun r => r.2.map Prod.fst)) = [CSV_COLUMNS] ∧
    SearchCrawl.renderRow
      ((process_item initState
        (foundItem 5 "T" "A" "D" "G" "1999" "u")).sinkRows.getD 0 (0, [])).2 =
      ["T", "A", "G", "D", "", "u", "found"] ∧
    (runWorker [notFoundItem 7 "T" "A"]).sinkRows.map
      (fun r => (r.1, SearchCrawl.rowGet r.2 "status")) = [(7, "not_found")] ∧
    (runWorker [notFoundItem 7 "T" "A"]).checkpointLines = [7] := by
  decide

end GoodreadsScraper

namespace GoodreadsScraper

theorem range_map_getD_comp {β γ : Type} (l : List β) (d : β) (g : β → γ) :
    (List.range l.length).map (fun i => g (l.getD i d)) = l.map g := by
  induction l with
  | nil => rfl
  | cons x xs ih =>
    rw [List.length_cons, List.range_succ_eq_map, List.map_cons, List.map_map,
      List.map_cons]
    exact congrArg (List.cons (g x)) ih

/-- Each task index of a nodup-indexed task list lands in exactly one
round-robin partition, exactly once: summing its occurrence counts over
the partitions' index lists gives 1. -/
theorem makePartitions_count_one {α : Type} (tasks : List (Nat × α)) (W : Nat)
    (hW : 1 ≤ W) (hnodup : (tasks.map Prod.fst).Nodup) (idx : Nat)
    (hidx : idx ∈ tasks.map Prod.fst) :
    ((List.range W).map (fun w =>
      (((SearchCrawl.makePartitions tasks W).getD w []).map Prod.fst).count
        idx)).sum = 1 := by
  have hlen := SearchCrawl.makePartitions_length tasks W
  have h1 : (List.range W).map (fun w =>
      (((SearchCrawl.makePartitions tasks W).getD w []).map Prod.fst).count idx) =
      (SearchCrawl.makePartitions tasks W).map
        (fun part => (part.map Prod.fst).count idx) := by
    have h0 := range_map_getD_comp (SearchCrawl.makePartitions tasks W) []
      (fun part => (part.map Prod.fst).count idx)
    rwa [hlen] at h0
  rw [h1]
  have h2 : (SearchCrawl.makePartitions tasks W).map
      (fun part => (part.map Prod.fst).count idx) =
      ((SearchCrawl.makePartitions tasks W).map (List.map Prod.fst)).map
        (List.count idx) := by
    rw [List.map_map]
    rfl
  rw [h2, ← List.count_flatten, ← List.map_flatten]
  rw [List.Perm.count_eq
    ((SearchCrawl.makePartitions_flatten_perm tasks W hW).map Prod.fst)]
  exact List.count_eq_one_of_mem hnodup hidx

/-- C4: in a completed (non-crashed) run — worker `w` processes exactly one
`SearchResultItem` per task of its partition, carrying that task's index,
and then closes its spider — every task index appears in exactly one
worker's checkpoint log, exactly once, and in exactly one worker's output
sink, exactly once (the occurrence counts over all workers sum to 1), and
for every worker the number of data rows in its sink equals the number of
marker lines in its checkpoint log. -/
theorem C4_completed_run {α : Type} (tasks : List (Nat × α)) (requested : Nat)
    (hreq : 1 ≤ requested) (hL : 1 ≤ tasks.length)
    (W : Nat) (hWdef : W = SearchCrawl.num_workers requested tasks.length)
    (hnodup : (tasks.map Prod.fst).Nodup)
    (items : Nat → List SearchResultItem)
    (hitems : ∀ w < W, (items w).map SearchResultItem.row_idx =
      ((SearchCrawl.makePartitions tasks W).getD w []).map Prod.fst) :
    (∀ idx ∈ tasks.map Prod.fst,
      ((List.range W).map (fun w =>
        ((runWorker (items w)).checkpointLines).count idx)).sum = 1) ∧
    (∀ idx ∈ tasks.map Prod.fst,
      ((List.range W).map (fun w =>
        ((runWorker (items w)).sinkRows.map Prod.fst).count idx)).sum = 1) ∧
    (∀ w < W, (runWorker (items w)).sinkRows.length =
      (runWorker (items w)).checkpointLines.length) := by
  have hW : 1 ≤ W := by
    rw [hWdef, SearchCrawl.num_workers]
    omega
  have hlines : ∀ w < W, (runWorker (items w)).checkpointLines =
      ((SearchCrawl.makePartitions tasks W).getD w []).map Prod.fst := by
    intro w hw
    rw [(runWorker_spec (items w)).1, hitems w hw]
  have hsink : ∀ w < W, (runWorker (items w)).sinkRows.map Prod.fst =
      ((SearchCrawl.makePartitions tasks W).getD w []).map Prod.fst := by
    intro w hw
    rw [(runWorker_spec (items w)).2.1, hitems w hw]
  refine ⟨?_, ?_, ?_⟩
  · intro idx hidx
    have hmap : (List.range W).map (fun w =>
        ((runWorker (items w)).checkpointLines).count idx) =
        (List.range W).map (fun w =>
          (((SearchCrawl.makePartitions tasks W).getD w []).map Prod.fst).count
            idx) := by
      apply List.map_congr_left
      intro w hw
      rw [hlines w (List.mem_range.mp hw)]
    rw [hmap]
    exact makePartitions_count_one tasks W hW hnodup idx hidx
  · intro idx hidx
    have hmap : (List.range W).map (fun w =>
        ((runWorker (items w)).sinkRows.map Prod.fst).count idx) =
        (List.range W).map (fun w =>
          (((SearchCrawl.makePartitions tasks W).getD w []).map Prod.fst).count
            idx) := by
      apply List.map_congr_left
      intro w hw
      rw [hsink w (List.mem_range.mp hw)]
    rw [hmap]
    exact makePartitions_count_one tasks W hW hnodup idx hidx
  · intro w _
    have h1 := (runWorker_spec (items w)).2.2.1
    have h2 := congrArg List.length (runWorker_spec (items w)).1
    rw [List.length_map] at h2
    omega

/-- Witness for C4: 3 tasks, 2 workers, worker 0 processing tasks 0 and 2
and worker 1 processing task 1; worker 0's row count equals its marker
count. -/
theorem C4_completed_run_witness :
    (runWorker ((fun w => if w = 0
        then [notFoundItem 0 "" "", notFoundItem 2 "" ""]
        else [notFoundItem 1 "" ""]) 0)).sinkRows.length =
      (runWorker ((fun w => if w = 0
        then [notFoundItem 0 "" "", notFoundItem 2 "" ""]
        else [notFoundItem 1 "" ""]) 0)).checkpointLines.length :=
  (C4_completed_run [(0, 0), (1, 1), (2, 2)] 2 (by decide) (by decide) 2
    (by decide) (by decide)
    (fun w => if w = 0
      then [notFoundItem 0 "" "", notFoundItem 2 "" ""]
      else [notFoundItem 1 "" ""])
    (by decide)).2.2 0 (by decide)

end GoodreadsScraper
